import Mathlib

/-!
Verification of the per-client rate limiter of the Go-Department-CRUD
repository (`pkg/middleware/ratelimiter`, wired in `routes/routes.go`).

Time is modelled in seconds as rationals; the monotone request clock is a
rational `now` parameter threaded through every operation.  The Go maps
`visitors` and `lastSeen` are modelled as finite partial functions
`String → Option _`.  The `sync.Mutex` guarding them serializes every
`getVisitor` body and every sweep iteration, so any concurrent execution is
equivalent to a sequential interleaving of these atomic steps; the model
therefore works with sequences of whole steps.
-/

namespace RateLimiterModel

/-- A token bucket.

Modelled from the spec: the token-bucket limiter is provided by the external
library `golang.org/x/time/rate` (`rate.Limiter`), whose source is not part of
this repository; the fields follow the spec's Bucket data model: configured
refill rate (tokens/second), maximum burst capacity, current token count as a
real (here rational) number, and the timestamp of the last refill
computation. -/
structure Bucket where
  refillRate : ℚ
  burstCap : ℕ
  tokens : ℚ
  lastRefill : ℚ
  deriving Repr, DecidableEq

/-- Modelled from the spec: `rate.NewLimiter(r, b)` (external library): a
newly created bucket starts at full capacity (burst tokens available), with
the last-refill timestamp at creation time. -/
def Bucket.new (r : ℚ) (b : ℕ) (now : ℚ) : Bucket :=
  { refillRate := r, burstCap := b, tokens := (b : ℚ), lastRefill := now }

/-- The token count the bucket holds after refilling at time `now`:
elapsed time (clamped to be nonnegative) times the refill rate is added,
capped at the burst capacity. -/
def Bucket.refillAt (bk : Bucket) (now : ℚ) : ℚ :=
  let elapsed := now - bk.lastRefill
  let clamped := if elapsed < 0 then 0 else elapsed
  let t := bk.tokens + bk.refillRate * clamped
  if (bk.burstCap : ℚ) < t then (bk.burstCap : ℚ) else t

/-- Modelled from the spec: `limiter.Allow()` (external library
`golang.org/x/time/rate`): compute elapsed time since the last refill, add
`elapsed × refillRate` tokens capped at burst capacity; if at least one token
is available, consume one and allow, otherwise deny.  Negative elapsed time
is clamped to zero. -/
def Bucket.allow (bk : Bucket) (now : ℚ) : Bool × Bucket :=
  let t := bk.refillAt now
  if 1 ≤ t then
    (true, { bk with tokens := t - 1, lastRefill := now })
  else
    (false, { bk with tokens := t, lastRefill := now })

/-- A Go map with string keys, as a finite partial function. -/
def SMap (β : Type) : Type := String → Option β

/-- The empty map. -/
def SMap.empty {β : Type} : SMap β := fun _ => none

/-- `m[k] = v` (Go map assignment). -/
def SMap.set {β : Type} (m : SMap β) (k : String) (v : β) : SMap β :=
  fun k' => if k' = k then some v else m k'

/-- `delete(m, k)` (Go map deletion). -/
def SMap.del {β : Type} (m : SMap β) (k : String) : SMap β :=
  fun k' => if k' = k then none else m k'

/-- The package-level shared mutable state of `pkg/middleware/ratelimiter`:
`var visitors = make(map[string]*rate.Limiter)` and
`var lastSeen = make(map[string]time.Time)`.  A `*rate.Limiter` pointer is
modelled as an allocation identifier paired with the bucket state it points
to; `nextId` is the allocator counter, so pointer identity is identifier
equality. -/
structure Registry where
  visitors : SMap (ℕ × Bucket)
  lastSeen : SMap ℚ
  nextId : ℕ

/-- The initial package state: both maps empty. -/
def Registry.empty : Registry :=
  { visitors := SMap.empty, lastSeen := SMap.empty, nextId := 0 }

/-- The inputs `getVisitor` reads from the `gin.Context`: client IP, HTTP
method, and request URL path. -/
structure Request where
  ip : String
  method : String
  path : String
  deriving Repr, DecidableEq

/-- `key := fmt.Sprintf("%s:%s:%s", ip, method, path)` in `getVisitor`. -/
def deriveKey (ip method path : String) : String :=
  ip ++ ":" ++ method ++ ":" ++ path

/-- The key `getVisitor` derives for a request. -/
def Request.key (req : Request) : String :=
  deriveKey req.ip req.method req.path

/-- `getVisitor(c, r, b)`: under the mutex, look the derived key up in
`visitors`; if absent, create a new limiter (`rate.NewLimiter(r, b)`) and
store it; in both cases set `lastSeen[key] = now` and return the limiter
(the stored pointer, i.e. identifier and bucket state). -/
def getVisitor (r : ℚ) (b : ℕ) (reg : Registry) (req : Request) (now : ℚ) :
    (ℕ × Bucket) × Registry :=
  match reg.visitors req.key with
  | some lim =>
      (lim, { reg with lastSeen := reg.lastSeen.set req.key now })
  | none =>
      let lim := (reg.nextId, Bucket.new r b now)
      (lim,
       { visitors := reg.visitors.set req.key lim,
         lastSeen := reg.lastSeen.set req.key now,
         nextId := reg.nextId + 1 })

/-- The response record written by `util.JSONError` (`pkg/util`,
`HttpResponse`): `Error` carries the error string, `Data` is always `nil`
there (modelled as `none`), `Timestamp` is the current time. -/
structure HttpResponse where
  message : String
  error : Option String
  path : String
  status : ℕ
  data : Option String
  timestamp : ℚ
  deriving Repr, DecidableEq

/-- What one execution of the `RateLimiter` handler does to the request
pipeline: `next` means `c.Next()` was called (downstream handlers run);
`abort` means `util.JSONError` wrote the given response and `c.Abort()`
stopped the pipeline before any downstream handler. -/
inductive Outcome where
  | next : Outcome
  | abort : HttpResponse → Outcome
  deriving Repr, DecidableEq

/-- The response `util.JSONError(c, http.StatusTooManyRequests, "Rate limit
exceeded", "You have exceeded the rate limit. Please try again later.")`
writes: the two fixed strings, the request's URL path, status 429, nil data,
and the current time. -/
def rejection (path : String) (now : ℚ) : HttpResponse :=
  { message := "Rate limit exceeded",
    error := some "You have exceeded the rate limit. Please try again later.",
    path := path,
    status := 429,
    data := none,
    timestamp := now }

/-- One execution of the closure returned by
`RateLimiter(r, burst, expireAfter)` on a request at time `now`:
`getVisitor` then `limiter.Allow()`; on denial, respond 429 with the fixed
message and error strings and abort; on admission, continue.  The limiter's
state change is written through the shared pointer, modelled by storing the
updated bucket back under the key.  The returned `ℕ` is the identifier of
the limiter pointer the call used. -/
def rateLimiterStep (r : ℚ) (burst : ℕ) (reg : Registry) (req : Request)
    (now : ℚ) : (ℕ × Outcome) × Registry :=
  let gv := getVisitor r burst reg req now
  let a := (gv.1.2).allow now
  let reg₂ := { gv.2 with visitors := (gv.2).visitors.set req.key (gv.1.1, a.2) }
  if a.1 then
    ((gv.1.1, Outcome.next), reg₂)
  else
    ((gv.1.1, Outcome.abort (rejection req.path now)), reg₂)

/-- One sweep iteration of the goroutine started by
`startVisitorCleanup(expireAfter)`: under the mutex, for every key in
`lastSeen`, if `time.Since(t) > expireAfter` (that is, `now - t >
expireAfter`), delete the key from both `visitors` and `lastSeen`. -/
def sweep (expireAfter now : ℚ) (reg : Registry) : Registry :=
  { reg with
    visitors := fun k =>
      match reg.lastSeen k with
      | some t => if expireAfter < now - t then none else reg.visitors k
      | none => reg.visitors k,
    lastSeen := fun k =>
      match reg.lastSeen k with
      | some t => if expireAfter < now - t then none else some t
      | none => none }

/-- The control outcome of one trip around the `for {}` loop in
`startVisitorCleanup`'s goroutine. -/
inductive LoopOutcome where
  | continue : Registry → LoopOutcome
  | exit : LoopOutcome

/-- One trip around the cleanup goroutine's loop: sleep one minute, run the
sweep under the mutex, and loop again.  The loop body of
`startVisitorCleanup` contains no `break`, `return` or channel/context
select, so every trip continues. -/
def sweepLoopIter (expireAfter : ℚ) (reg : Registry) (now : ℚ) : LoopOutcome :=
  LoopOutcome.continue (sweep expireAfter now reg)

/-- The cleanup loop can stop: some state and tick time make the loop body
exit instead of continuing to the next iteration. -/
def sweeperCancellable (expireAfter : ℚ) : Prop :=
  ∃ reg now, sweepLoopIter expireAfter reg now = LoopOutcome.exit

/-- Repeated `limiter.Allow()` calls on one bucket, all at the same time
`now` (zero elapsed time between calls); returns the list of decisions and
the final bucket state. -/
def allowList (bk : Bucket) (now : ℚ) : ℕ → List Bool × Bucket
  | 0 => ([], bk)
  | n + 1 =>
      let a := bk.allow now
      let rest := allowList a.2 now n
      (a.1 :: rest.1, rest.2)

/-- `n` executions of the `RateLimiter` handler for the same request, all at
time `now` (the mutex linearizes concurrent executions, so any interleaving
of `n` concurrent requests is one of these sequential orders); returns the
list of (limiter identifier, outcome) observations and the final state. -/
def rateLimiterIter (r : ℚ) (burst : ℕ) (req : Request) (now : ℚ) :
    ℕ → Registry → List (ℕ × Outcome) × Registry
  | 0, reg => ([], reg)
  | n + 1, reg =>
      let s := rateLimiterStep r burst reg req now
      let rest := rateLimiterIter r burst req now n s.2
      (s.1 :: rest.1, rest.2)

/-- Route-group rate-limiter configurations from `routes/routes.go`:
`(refill rate in tokens/second, burst, idle TTL in seconds)`.
`rate.Every(d)` is the limit `1/d`. -/
def authConfig : ℚ × ℕ × ℚ := (1 / 30, 1, 300)

/-- `/api/v1/departments` group: `rate.Every(5s), burst 2, TTL 10min`. -/
def deptConfig : ℚ × ℕ × ℚ := (1 / 5, 2, 600)

/-- `/api/v1/users` group: `rate.Every(1s), burst 10, TTL 15min`. -/
def userConfig : ℚ × ℕ × ℚ := (1, 10, 900)

/-- `/api/v1/dataredis` group: `rate.Every(3s), burst 5, TTL 10min`. -/
def dataRedisConfig : ℚ × ℕ × ℚ := (1 / 3, 5, 600)

/-- The number of allowed outcomes among a list of observations. -/
def countAllowed (l : List (ℕ × Outcome)) : ℕ :=
  (l.filter (fun ob => ob.2 = Outcome.next)).length

/-- The integer part of a (nonnegative) token count. -/
def tokFloor (q : ℚ) : ℕ := (⌊q⌋).toNat

/-- The `visitors` and `lastSeen` maps hold exactly the same keys. -/
def sameKeys (reg : Registry) : Prop :=
  ∀ k, (reg.visitors k).isSome ↔ (reg.lastSeen k).isSome

/-- The observation a `RateLimiter` execution makes when it uses the limiter
with identifier `id` and its admission check returns `ok`. -/
def obsOf (id : ℕ) (path : String) (now : ℚ) (ok : Bool) : ℕ × Outcome :=
  (id, if ok then Outcome.next else Outcome.abort (rejection path now))

theorem SMap.set_self {β : Type} (m : SMap β) (k : String) (v : β) :
    m.set k v k = some v := by
  simp [SMap.set]

theorem SMap.set_other {β : Type} (m : SMap β) (k k' : String) (v : β)
    (h : k' ≠ k) : m.set k v k' = m k' := by
  simp [SMap.set, h]

theorem getVisitor_found {reg : Registry} {req : Request} {lim : ℕ × Bucket}
    (r : ℚ) (b : ℕ) (now : ℚ) (h : reg.visitors req.key = some lim) :
    getVisitor r b reg req now =
      (lim, { reg with lastSeen := reg.lastSeen.set req.key now }) := by
  simp [getVisitor, h]

theorem getVisitor_fresh {reg : Registry} {req : Request}
    (r : ℚ) (b : ℕ) (now : ℚ) (h : reg.visitors req.key = none) :
    getVisitor r b reg req now =
      ((reg.nextId, Bucket.new r b now),
       { visitors := reg.visitors.set req.key (reg.nextId, Bucket.new r b now),
         lastSeen := reg.lastSeen.set req.key now,
         nextId := reg.nextId + 1 }) := by
  simp [getVisitor, h]

theorem rateLimiterStep_found {reg : Registry} {req : Request} {id : ℕ}
    {bk : Bucket} (r : ℚ) (B : ℕ) (now : ℚ)
    (h : reg.visitors req.key = some (id, bk)) :
    rateLimiterStep r B reg req now =
      (obsOf id req.path now (bk.allow now).1,
       { visitors := reg.visitors.set req.key (id, (bk.allow now).2),
         lastSeen := reg.lastSeen.set req.key now,
         nextId := reg.nextId }) := by
  rcases ha : (bk.allow now).1 with _ | _ <;>
    simp [rateLimiterStep, getVisitor_found r B now h, obsOf, ha]

theorem rateLimiterStep_fresh {reg : Registry} {req : Request}
    (r : ℚ) (B : ℕ) (now : ℚ) (h : reg.visitors req.key = none) :
    rateLimiterStep r B reg req now =
      (obsOf reg.nextId req.path now ((Bucket.new r B now).allow now).1,
       { visitors := (reg.visitors.set req.key
            (reg.nextId, Bucket.new r B now)).set req.key
            (reg.nextId, ((Bucket.new r B now).allow now).2),
         lastSeen := reg.lastSeen.set req.key now,
         nextId := reg.nextId + 1 }) := by
  rcases ha : ((Bucket.new r B now).allow now).1 with _ | _ <;>
    simp [rateLimiterStep, getVisitor_fresh r B now h, obsOf, ha]

theorem sweep_expired {reg : Registry} {k : String} {t : ℚ} (e now : ℚ)
    (hk : reg.lastSeen k = some t) (hexp : e < now - t) :
    (sweep e now reg).lastSeen k = none ∧ (sweep e now reg).visitors k = none := by
  constructor <;> simp [sweep, hk, hexp]

theorem sweep_live {reg : Registry} {k : String} {t : ℚ} (e now : ℚ)
    (hk : reg.lastSeen k = some t) (hlive : now - t ≤ e) :
    (sweep e now reg).lastSeen k = some t ∧
      (sweep e now reg).visitors k = reg.visitors k := by
  constructor <;> simp [sweep, hk, not_lt.mpr hlive]

theorem step_frame (r : ℚ) (B : ℕ) (reg : Registry) (req : Request)
    (now : ℚ) (k' : String) (h : k' ≠ req.key) :
    (rateLimiterStep r B reg req now).2.visitors k' = reg.visitors k' ∧
      (rateLimiterStep r B reg req now).2.lastSeen k' = reg.lastSeen k' := by
  rcases hv : reg.visitors req.key with _ | ⟨id, bk⟩
  · simp [rateLimiterStep_fresh r B now hv, SMap.set_other _ _ _ _ h]
  · simp [rateLimiterStep_found r B now hv, SMap.set_other _ _ _ _ h]

theorem step_lastSeen_self (r : ℚ) (B : ℕ) (reg : Registry) (req : Request)
    (now : ℚ) :
    (rateLimiterStep r B reg req now).2.lastSeen req.key = some now := by
  rcases hv : reg.visitors req.key with _ | ⟨id, bk⟩
  · simp [rateLimiterStep_fresh r B now hv, SMap.set_self]
  · simp [rateLimiterStep_found r B now hv, SMap.set_self]

theorem ite_lt_cap (t b : ℚ) : (if b < t then b else t) = min t b := by
  rcases le_or_lt t b with h | h
  · rw [if_neg (not_lt.mpr h), min_eq_left h]
  · rw [if_pos h, min_eq_right h.le]

theorem ite_lt_clamp (x : ℚ) : (if x < 0 then 0 else x) = max x 0 := by
  rcases le_or_lt 0 x with h | h
  · rw [if_neg (not_lt.mpr h), max_eq_left h]
  · rw [if_pos h, max_eq_right h.le]

theorem Bucket.refillAt_eq (bk : Bucket) (now : ℚ) :
    bk.refillAt now =
      min (bk.tokens + bk.refillRate * max (now - bk.lastRefill) 0)
        (bk.burstCap : ℚ) := by
  simp only [Bucket.refillAt, ite_lt_clamp, ite_lt_cap]

theorem Bucket.refillAt_le_burst (bk : Bucket) (now : ℚ) :
    bk.refillAt now ≤ (bk.burstCap : ℚ) := by
  rw [Bucket.refillAt_eq]; exact min_le_right _ _

theorem Bucket.refillAt_now (r : ℚ) (B : ℕ) (m now : ℚ) :
    (⟨r, B, m, now⟩ : Bucket).refillAt now = min m (B : ℚ) := by
  rw [Bucket.refillAt_eq]; simp

theorem Bucket.allow_true {bk : Bucket} {now : ℚ} (h : 1 ≤ bk.refillAt now) :
    bk.allow now =
      (true, ⟨bk.refillRate, bk.burstCap, bk.refillAt now - 1, now⟩) := by
  simp [Bucket.allow, h]

theorem Bucket.allow_false {bk : Bucket} {now : ℚ} (h : bk.refillAt now < 1) :
    bk.allow now =
      (false, ⟨bk.refillRate, bk.burstCap, bk.refillAt now, now⟩) := by
  simp [Bucket.allow, not_le.mpr h]

theorem Bucket.new_allow (r now : ℚ) (B : ℕ) (hB : 1 ≤ B) :
    (Bucket.new r B now).allow now = (true, ⟨r, B, (B : ℚ) - 1, now⟩) := by
  have h : (Bucket.new r B now).refillAt now = (B : ℚ) := by
    rw [show Bucket.new r B now = ⟨r, B, (B : ℚ), now⟩ from rfl,
      Bucket.refillAt_now, min_self]
  have h1 : 1 ≤ (Bucket.new r B now).refillAt now := by
    rw [h]; exact_mod_cast hB
  rw [Bucket.allow_true h1, h]
  rfl

theorem Bucket.allow_denied_same_time (r : ℚ) (B : ℕ) (t now : ℚ)
    (ht : t < 1) :
    ((⟨r, B, t, now⟩ : Bucket).allow now).1 = false := by
  have h : (⟨r, B, t, now⟩ : Bucket).refillAt now < 1 :=
    lt_of_le_of_lt (by rw [Bucket.refillAt_now]; exact min_le_left _ _) ht
  rw [Bucket.allow_false h]

theorem Bucket.allow_norm (bk : Bucket) (now : ℚ) :
    (⟨bk.refillRate, bk.burstCap, bk.refillAt now, now⟩ : Bucket).allow now
      = bk.allow now := by
  have hre : (⟨bk.refillRate, bk.burstCap, bk.refillAt now, now⟩ :
      Bucket).refillAt now = bk.refillAt now := by
    rw [Bucket.refillAt_now]
    exact min_eq_left (Bucket.refillAt_le_burst bk now)
  simp only [Bucket.allow, hre]

theorem allowList_norm (r now : ℚ) (B : ℕ) :
    ∀ (n : ℕ) (m : ℚ), 0 ≤ m → m ≤ (B : ℚ) →
      (allowList ⟨r, B, m, now⟩ now n).1 =
        List.replicate (min n (tokFloor m)) true ++
          List.replicate (n - tokFloor m) false := by
  intro n
  induction n with
  | zero => intro m _ _; simp [allowList]
  | succ n ih =>
    intro m hm0 hmB
    have hre : (⟨r, B, m, now⟩ : Bucket).refillAt now = m := by
      rw [Bucket.refillAt_now]; exact min_eq_left hmB
    by_cases h1 : 1 ≤ m
    · have hfl : 1 ≤ ⌊m⌋ := by exact_mod_cast Int.le_floor.mpr (by exact_mod_cast h1)
      have htf : tokFloor m = tokFloor (m - 1) + 1 := by
        unfold tokFloor
        rw [show m - 1 = m - ((1 : ℤ) : ℚ) by push_cast; ring, Int.floor_sub_int]
        omega
      have hadm : (⟨r, B, m, now⟩ : Bucket).allow now = (true, ⟨r, B, m - 1, now⟩) := by
        have := @Bucket.allow_true ⟨r, B, m, now⟩ now (by rw [hre]; exact h1)
        rw [hre] at this; exact this
      have hrec := ih (m - 1) (by linarith) (by linarith)
      simp only [allowList, hadm]
      rw [hrec, htf, Nat.succ_min_succ, Nat.succ_sub_succ, List.replicate_succ,
        List.cons_append]
    · push_neg at h1
      have htf : tokFloor m = 0 := by
        unfold tokFloor
        rw [Int.floor_eq_zero_iff.mpr ⟨hm0, h1⟩]
        rfl
      have hadm : (⟨r, B, m, now⟩ : Bucket).allow now = (false, ⟨r, B, m, now⟩) := by
        have := @Bucket.allow_false ⟨r, B, m, now⟩ now (by rw [hre]; exact h1)
        rw [hre] at this; exact this
      have hrec := ih m hm0 hmB
      simp only [allowList, hadm]
      rw [hrec, htf]
      simp [List.replicate_succ]

theorem allowList_refill (bk : Bucket) (now : ℚ) (n : ℕ) :
    (allowList bk now n).1 =
      (allowList ⟨bk.refillRate, bk.burstCap, bk.refillAt now, now⟩ now n).1 := by
  cases n with
  | zero => rfl
  | succ n => simp only [allowList, Bucket.allow_norm]

theorem allowList_length (bk : Bucket) (now : ℚ) (n : ℕ) :
    (allowList bk now n).1.length = n := by
  induction n generalizing bk with
  | zero => rfl
  | succ n ih => simp [allowList, ih]

theorem tokFloor_le_burst {m : ℚ} (B : ℕ) (h : m ≤ (B : ℚ)) : tokFloor m ≤ B := by
  unfold tokFloor
  have : ⌊m⌋ ≤ (B : ℤ) := by
    have := Int.floor_le_floor h
    rwa [Int.floor_natCast] at this
  omega

theorem tokFloor_natCast (B : ℕ) : tokFloor (B : ℚ) = B := by
  unfold tokFloor
  rw [Int.floor_natCast]
  rfl

theorem allowList_new (r now : ℚ) (B n : ℕ) :
    (allowList (Bucket.new r B now) now n).1 =
      List.replicate (min n B) true ++ List.replicate (n - B) false := by
  have hnew : Bucket.new r B now = ⟨r, B, (B : ℚ), now⟩ := rfl
  rw [hnew, allowList_norm r now B n (B : ℚ) (Nat.cast_nonneg B) le_rfl,
    tokFloor_natCast]

theorem rateLimiterIter_found (r : ℚ) (B : ℕ) (req : Request) (now : ℚ) :
    ∀ (n : ℕ) (reg : Registry) (id : ℕ) (bk : Bucket),
      reg.visitors req.key = some (id, bk) →
      (rateLimiterIter r B req now n reg).1 =
        ((allowList bk now n).1).map (obsOf id req.path now) ∧
      (rateLimiterIter r B req now n reg).2.nextId = reg.nextId := by
  intro n
  induction n with
  | zero => intro reg id bk _; simp [rateLimiterIter, allowList]
  | succ n ih =>
    intro reg id bk h
    have hstep := rateLimiterStep_found r B now h
    have hnext : ((rateLimiterStep r B reg req now).2).visitors req.key =
        some (id, (bk.allow now).2) := by
      rw [hstep]; exact SMap.set_self _ _ _
    obtain ⟨ih1, ih2⟩ := ih _ id ((bk.allow now).2) hnext
    refine ⟨?_, ?_⟩
    · simp only [rateLimiterIter, allowList, List.map_cons]
      rw [ih1, hstep]
    · simp only [rateLimiterIter]
      rw [ih2, hstep]

theorem rateLimiterIter_fresh (r : ℚ) (B : ℕ) (req : Request) (now : ℚ)
    (n : ℕ) (reg : Registry) (h : reg.visitors req.key = none) :
    (rateLimiterIter r B req now (n + 1) reg).1 =
      ((allowList (Bucket.new r B now) now (n + 1)).1).map
        (obsOf reg.nextId req.path now) ∧
    (rateLimiterIter r B req now (n + 1) reg).2.nextId = reg.nextId + 1 := by
  have hstep := rateLimiterStep_fresh r B now h
  have hnext : ((rateLimiterStep r B reg req now).2).visitors req.key =
      some (reg.nextId, ((Bucket.new r B now).allow now).2) := by
    rw [hstep]; exact SMap.set_self _ _ _
  obtain ⟨ih1, ih2⟩ := rateLimiterIter_found r B req now n _ reg.nextId
    ((Bucket.new r B now).allow now).2 hnext
  refine ⟨?_, ?_⟩
  · simp only [rateLimiterIter, allowList, List.map_cons]
    rw [ih1, hstep]
  · simp only [rateLimiterIter]
    rw [ih2, hstep]

/-- C2: under a route group configured with idle TTL `expireAfter`, a
registry entry untouched for longer than `expireAfter` is removed by the
cleanup sweep (from both maps), an entry whose last-seen time is within
`expireAfter` is never removed by the sweep, and after removal the next
`getVisitor` call for that key creates a fresh bucket at full burst
capacity. -/
theorem c2_idle_eviction (e now t : ℚ) (reg : Registry) (req : Request)
    (ht : reg.lastSeen req.key = some t) :
    (e < now - t →
      (sweep e now reg).lastSeen req.key = none ∧
      (sweep e now reg).visitors req.key = none ∧
      ∀ (r : ℚ) (B : ℕ) (now' : ℚ),
        ((getVisitor r B (sweep e now reg) req now').1).2 = Bucket.new r B now' ∧
        (Bucket.new r B now').tokens = (B : ℚ)) ∧
    (now - t ≤ e →
      (sweep e now reg).lastSeen req.key = some t ∧
      (sweep e now reg).visitors req.key = reg.visitors req.key) := by
  constructor
  · intro hexp
    obtain ⟨h1, h2⟩ := sweep_expired e now ht hexp
    refine ⟨h1, h2, fun r B now' => ⟨?_, rfl⟩⟩
    rw [getVisitor_fresh r B now' h2]
  · intro hlive
    exact sweep_live e now ht hlive

theorem c2_idle_eviction_witness :
    ((300 : ℚ) < 360 - 0 ∧
      (sweep 300 360
        (rateLimiterStep (1 / 30) 1 Registry.empty
          ⟨"1.2.3.4", "POST", "/auth/login"⟩ 0).2).visitors
        (Request.key ⟨"1.2.3.4", "POST", "/auth/login"⟩) = none) ∧
    ((getVisitor (1 / 30) 1
        (sweep 300 360
          (rateLimiterStep (1 / 30) 1 Registry.empty
            ⟨"1.2.3.4", "POST", "/auth/login"⟩ 0).2)
        ⟨"1.2.3.4", "POST", "/auth/login"⟩ 400).1).2 =
      Bucket.new (1 / 30) 1 400 := by
  have h := c2_idle_eviction 300 360 0
    (rateLimiterStep (1 / 30) 1 Registry.empty
      ⟨"1.2.3.4", "POST", "/auth/login"⟩ 0).2
    ⟨"1.2.3.4", "POST", "/auth/login"⟩
    (step_lastSeen_self (1 / 30) 1 Registry.empty
      ⟨"1.2.3.4", "POST", "/auth/login"⟩ 0)
  obtain ⟨hrem, -, hfreshbk⟩ := h.1 (by norm_num)
  exact ⟨⟨by norm_num, (h.1 (by norm_num)).2.1⟩, (hfreshbk (1 / 30) 1 400).1⟩

/-- C6: whenever the admission check (`limiter.Allow()`) denies a request,
the `RateLimiter` middleware aborts the pipeline without invoking any
downstream handler (outcome `abort`, never `next`) and responds 429 with
exactly the fields `message = "Rate limit exceeded"`,
`error = "You have exceeded the rate limit. Please try again later."`,
`path` = the request's URL path, `status = 429`, `data = null`, and
`timestamp` = the current time. -/
theorem c6_rejection_shape (r : ℚ) (B : ℕ) (reg : Registry) (req : Request)
    (now : ℚ)
    (hdeny : (((getVisitor r B reg req now).1).2.allow now).1 = false) :
    (rateLimiterStep r B reg req now).1.2 =
      Outcome.abort
        { message := "Rate limit exceeded",
          error := some "You have exceeded the rate limit. Please try again later.",
          path := req.path,
          status := 429,
          data := none,
          timestamp := now } := by
  simp only [rateLimiterStep, hdeny]
  rfl

theorem c6_rejection_shape_witness :
    (rateLimiterStep (1 / 30) 1
        (rateLimiterStep (1 / 30) 1 Registry.empty
          ⟨"1.2.3.4", "POST", "/auth/login"⟩ 0).2
        ⟨"1.2.3.4", "POST", "/auth/login"⟩ 0).1.2 =
      Outcome.abort
        { message := "Rate limit exceeded",
          error := some "You have exceeded the rate limit. Please try again later.",
          path := "/auth/login",
          status := 429,
          data := none,
          timestamp := 0 } := by
  apply c6_rejection_shape
  have hv : ((rateLimiterStep (1 / 30) 1 Registry.empty
      ⟨"1.2.3.4", "POST", "/auth/login"⟩ 0).2).visitors
      (Request.key ⟨"1.2.3.4", "POST", "/auth/login"⟩) =
      some (Registry.empty.nextId,
        ((Bucket.new (1 / 30) 1 0).allow 0).2) := by
    rw [rateLimiterStep_fresh (1 / 30) 1 0 rfl]
    simp [SMap.set]
  rw [getVisitor_found (1 / 30) 1 0 hv, Bucket.new_allow (1 / 30) 0 1 le_rfl]
  exact Bucket.allow_denied_same_time (1 / 30) 1 (((1 : ℕ) : ℚ) - 1) 0
    (by norm_num)

/-- C7: every `RateLimiter` execution for the request deriving key `k` sets
`lastSeen[k]` to the current time (whether allowed or denied), and for
every other key the stored limiter and last-seen time are unchanged, so
exhausting one key's bucket never affects another key's. -/
theorem c7_per_key_frame (r : ℚ) (B : ℕ) (reg : Registry) (req : Request)
    (now : ℚ) :
    (rateLimiterStep r B reg req now).2.lastSeen req.key = some now ∧
    ∀ k', k' ≠ req.key →
      (rateLimiterStep r B reg req now).2.visitors k' = reg.visitors k' ∧
      (rateLimiterStep r B reg req now).2.lastSeen k' = reg.lastSeen k' :=
  ⟨step_lastSeen_self r B reg req now, fun k' h => step_frame r B reg req now k' h⟩

theorem c7_per_key_frame_witness :
    (rateLimiterStep (1 / 30) 1 Registry.empty
        ⟨"1.2.3.4", "POST", "/auth/login"⟩ 0).2.lastSeen
        (Request.key ⟨"1.2.3.4", "POST", "/auth/login"⟩) = some 0 ∧
    (rateLimiterStep (1 / 30) 1 Registry.empty
        ⟨"1.2.3.4", "POST", "/auth/login"⟩ 0).2.visitors
        "5.6.7.8:GET:/api/v1/users" = Registry.empty.visitors
        "5.6.7.8:GET:/api/v1/users" :=
  ⟨(c7_per_key_frame (1 / 30) 1 Registry.empty
      ⟨"1.2.3.4", "POST", "/auth/login"⟩ 0).1,
   ((c7_per_key_frame (1 / 30) 1 Registry.empty
      ⟨"1.2.3.4", "POST", "/auth/login"⟩ 0).2
      "5.6.7.8:GET:/api/v1/users" (by decide)).1⟩

/-- C10: if `visitors` and `lastSeen` hold the same keys, then they still
hold the same keys after any `getVisitor` call and after any cleanup sweep
iteration: a key has a limiter stored iff it has a last-seen timestamp
stored. -/
theorem c10_same_key_sets (r e : ℚ) (B : ℕ) (reg : Registry) (req : Request)
    (now : ℚ) (h : sameKeys reg) :
    sameKeys (getVisitor r B reg req now).2 ∧ sameKeys (sweep e now reg) := by
  constructor
  · rcases hv : reg.visitors req.key with _ | lim
    · rw [getVisitor_fresh r B now hv]
      intro k
      by_cases hk : k = req.key
      · subst hk; simp [SMap.set_self]
      · simp [SMap.set_other _ _ _ _ hk, h k]
    · rw [getVisitor_found r B now hv]
      intro k
      by_cases hk : k = req.key
      · subst hk; simp [SMap.set_self, hv]
      · simp [SMap.set_other _ _ _ _ hk, h k]
  · intro k
    rcases hl : reg.lastSeen k with _ | t
    · rcases hv : reg.visitors k with _ | w
      · simp [sweep, hl, hv]
      · exfalso
        have hk := h k
        rw [hl, hv] at hk
        simp at hk
    · by_cases hexp : e < now - t
      · simp [sweep, hl, hexp]
      · have hk := h k
        rw [hl] at hk
        simp [sweep, hl, hexp, hk]

theorem c10_same_key_sets_witness :
    sameKeys (getVisitor (1 / 30) 1 Registry.empty
      ⟨"1.2.3.4", "POST", "/auth/login"⟩ 0).2 ∧
    sameKeys (sweep 300 60 Registry.empty) :=
  c10_same_key_sets (1 / 30) 300 1 Registry.empty
    ⟨"1.2.3.4", "POST", "/auth/login"⟩ 0 (fun _ => Iff.rfl)

theorem countAllowed_obs (id : ℕ) (p : String) (now : ℚ) (a b : ℕ) :
    countAllowed ((List.replicate a true ++ List.replicate b false).map
      (obsOf id p now)) = a := by
  simp [countAllowed, obsOf, List.filter_append, List.map_replicate,
    List.filter_replicate]

/-- C3: for a fresh key whose limiter is created with burst capacity `B ≥ 1`,
the newly created bucket starts at full burst, so `B + 1` back-to-back
`RateLimiter` executions at the same instant allow the first `B` requests
and deny the `(B+1)`th with the 429 rejection. -/
theorem c3_burst_admission (r : ℚ) (B : ℕ) (req : Request) (now : ℚ)
    (reg : Registry) (hfresh : reg.visitors req.key = none) (_hB : 1 ≤ B) :
    ((rateLimiterIter r B req now (B + 1) reg).1).map Prod.snd =
      List.replicate B Outcome.next ++
        [Outcome.abort (rejection req.path now)] := by
  obtain ⟨h1, -⟩ := rateLimiterIter_fresh r B req now B reg hfresh
  rw [h1, allowList_new, min_eq_right (Nat.le_succ B), Nat.add_sub_cancel_left]
  simp [obsOf]

theorem c3_burst_admission_witness :
    ((rateLimiterIter (1 / 5) 2 ⟨"1.2.3.4", "GET", "/api/v1/departments"⟩ 0
        3 Registry.empty).1).map Prod.snd =
      List.replicate 2 Outcome.next ++
        [Outcome.abort (rejection "/api/v1/departments" 0)] :=
  c3_burst_admission (1 / 5) 2 ⟨"1.2.3.4", "GET", "/api/v1/departments"⟩ 0
    Registry.empty rfl (by decide)

/-- C4: a bucket with refill rate `R` tokens/second and burst capacity `B`,
exhausted (zero tokens) at time `t₀`, allows after `T` further seconds
exactly `⌊min (R * T) B⌋` zero-delay admission checks before the next
denial. -/
theorem c4_refill_correctness (r T t₀ : ℚ) (B : ℕ) (hr : 0 ≤ r)
    (hT : 0 ≤ T) :
    (allowList ⟨r, B, 0, t₀⟩ (t₀ + T)
        (tokFloor (min (r * T) (B : ℚ)) + 1)).1 =
      List.replicate (tokFloor (min (r * T) (B : ℚ))) true ++ [false] := by
  have hre : (⟨r, B, 0, t₀⟩ : Bucket).refillAt (t₀ + T) =
      min (r * T) (B : ℚ) := by
    rw [Bucket.refillAt_eq]
    simp [add_sub_cancel_left, max_eq_left hT]
  rw [allowList_refill ⟨r, B, 0, t₀⟩ (t₀ + T)
    (tokFloor (min (r * T) (B : ℚ)) + 1)]
  rw [show (⟨(⟨r, B, 0, t₀⟩ : Bucket).refillRate,
      (⟨r, B, 0, t₀⟩ : Bucket).burstCap,
      (⟨r, B, 0, t₀⟩ : Bucket).refillAt (t₀ + T), t₀ + T⟩ : Bucket) =
      ⟨r, B, min (r * T) (B : ℚ), t₀ + T⟩ from by rw [hre]]
  rw [allowList_norm r (t₀ + T) B _ _
    (le_min (mul_nonneg hr hT) (Nat.cast_nonneg B)) (min_le_right _ _)]
  rw [min_eq_right (Nat.le_succ _), Nat.add_sub_cancel_left]
  simp

theorem c4_refill_correctness_witness :
    (allowList ⟨1 / 2, 2, 0, 7⟩ (7 + 5)
        (tokFloor (min ((1 / 2) * 5) ((2 : ℕ) : ℚ)) + 1)).1 =
      List.replicate (tokFloor (min ((1 / 2) * 5) ((2 : ℕ) : ℚ))) true ++
        [false] :=
  c4_refill_correctness (1 / 2) 5 7 2 (by norm_num) (by norm_num)

/-- C5: the whole body of `getVisitor` runs under the package mutex, so any
interleaving of `N` concurrent first-time requests for one unseen key is a
sequential order of `N` atomic executions; for every such order, exactly one
limiter is allocated (the allocator counter grows by exactly one), every
execution observes the same limiter identifier, and the combined admissions
across all `N` executions never exceed the burst capacity. -/
theorem c5_concurrent_single_creation (r : ℚ) (B N : ℕ) (req : Request)
    (now : ℚ) (reg : Registry) (hfresh : reg.visitors req.key = none)
    (hN : 1 ≤ N) :
    ((rateLimiterIter r B req now N reg).1).map Prod.fst =
        List.replicate N reg.nextId ∧
      (rateLimiterIter r B req now N reg).2.nextId = reg.nextId + 1 ∧
      countAllowed (rateLimiterIter r B req now N reg).1 ≤ B := by
  obtain ⟨n, rfl⟩ : ∃ n, N = n + 1 := ⟨N - 1, by omega⟩
  obtain ⟨h1, h2⟩ := rateLimiterIter_fresh r B req now n reg hfresh
  refine ⟨?_, h2, ?_⟩
  · rw [h1, List.map_map]
    have hconst : (Prod.fst ∘ obsOf reg.nextId req.path now) =
        fun _ => reg.nextId := by
      funext ok; cases ok <;> rfl
    rw [hconst, List.map_const', allowList_length]
  · rw [h1, allowList_new, countAllowed_obs]
    exact min_le_right _ _

theorem c5_concurrent_single_creation_witness :
    ((rateLimiterIter 1 10 ⟨"1.2.3.4", "GET", "/api/v1/users"⟩ 0 3
        Registry.empty).1).map Prod.fst = List.replicate 3 Registry.empty.nextId ∧
      (rateLimiterIter 1 10 ⟨"1.2.3.4", "GET", "/api/v1/users"⟩ 0 3
        Registry.empty).2.nextId = Registry.empty.nextId + 1 ∧
      countAllowed (rateLimiterIter 1 10 ⟨"1.2.3.4", "GET", "/api/v1/users"⟩
        0 3 Registry.empty).1 ≤ 10 :=
  c5_concurrent_single_creation 1 10 3 ⟨"1.2.3.4", "GET", "/api/v1/users"⟩ 0
    Registry.empty rfl (by decide)

theorem colon_split : ∀ (a a' r r' : List Char), ':' ∉ a → ':' ∉ a' →
    a ++ ':' :: r = a' ++ ':' :: r' → a = a' ∧ r = r' := by
  intro a
  induction a with
  | nil =>
    intro a' r r' _ ha' h
    cases a' with
    | nil => simpa using h
    | cons c t =>
      rw [List.nil_append, List.cons_append] at h
      injection h with h1 h2
      exact absurd (by rw [h1]; exact List.mem_cons_self c t) ha'
  | cons c t ih =>
    intro a' r r' ha ha' h
    cases a' with
    | nil =>
      rw [List.nil_append, List.cons_append] at h
      injection h with h1 h2
      exact absurd (by rw [← h1]; exact List.mem_cons_self c t) ha
    | cons c' t' =>
      rw [List.cons_append, List.cons_append] at h
      injection h with h1 h2
      obtain ⟨he, hr⟩ := ih t' r r' (fun hm => ha (List.mem_cons_of_mem _ hm))
        (fun hm => ha' (List.mem_cons_of_mem _ hm)) h2
      exact ⟨by rw [h1, he], hr⟩

theorem colon_data : (":" : String).data = [':'] := rfl

theorem deriveKey_data (ip m p : String) :
    (deriveKey ip m p).data = ip.data ++ ':' :: (m.data ++ ':' :: p.data) := by
  simp [deriveKey, String.data_append, colon_data]

/-- C8 fails as stated: the key derivation `ip ++ ":" ++ method ++ ":" ++
path` is not injective on all inputs, because the separator character can
occur inside the components (IPv6 client addresses contain colons): two
distinct (address, method, path) tuples derive the same key. -/
theorem c8_counterexample :
    deriveKey "::1" "GET" "/auth/login" = deriveKey ":" "1:GET" "/auth/login" ∧
      (("::1", "GET", "/auth/login") : String × String × String) ≠
        (":", "1:GET", "/auth/login") := by
  constructor
  · decide
  · decide

/-- C8 amended: the key derivation is deterministic, and it is injective on
every pair of inputs whose address and method components contain no colon
character: with colon-free addresses and methods, two tuples derive the same
key exactly when they are equal componentwise. -/
theorem c8_key_derivation (ip₁ m₁ p₁ ip₂ m₂ p₂ : String)
    (hip₁ : ':' ∉ ip₁.data) (hm₁ : ':' ∉ m₁.data)
    (hip₂ : ':' ∉ ip₂.data) (hm₂ : ':' ∉ m₂.data) :
    deriveKey ip₁ m₁ p₁ = deriveKey ip₂ m₂ p₂ ↔
      (ip₁ = ip₂ ∧ m₁ = m₂ ∧ p₁ = p₂) := by
  constructor
  · intro h
    have hd : (deriveKey ip₁ m₁ p₁).data = (deriveKey ip₂ m₂ p₂).data := by
      rw [h]
    rw [deriveKey_data, deriveKey_data] at hd
    obtain ⟨hip, hrest⟩ := colon_split _ _ _ _ hip₁ hip₂ hd
    obtain ⟨hm, hp⟩ := colon_split _ _ _ _ hm₁ hm₂ hrest
    exact ⟨String.ext hip, String.ext hm, String.ext hp⟩
  · rintro ⟨rfl, rfl, rfl⟩
    rfl

theorem c8_key_derivation_witness :
    (deriveKey "1.2.3.4" "GET" "/api/v1/users" =
        deriveKey "1.2.3.4" "POST" "/api/v1/users" ↔
      (("1.2.3.4" : String) = "1.2.3.4" ∧ ("GET" : String) = "POST" ∧
        ("/api/v1/users" : String) = "/api/v1/users")) :=
  c8_key_derivation "1.2.3.4" "GET" "/api/v1/users" "1.2.3.4" "POST"
    "/api/v1/users" (by decide) (by decide) (by decide) (by decide)

/-- C1 fails as stated: all `RateLimiter` route groups share the single
package-level `visitors`/`lastSeen` registry, and a sweeper started for one
group sweeps the whole shared registry with that group's TTL.  Concretely
(configurations from `routes/routes.go`): a `/api/v1/users`-group entry
(TTL 900 s) last seen at time 0 is removed at time 360 by the sweep running
with the `/auth` group's TTL of 300 s, although 360 s is within the users
group's own TTL. -/
theorem c1_counterexample :
    (sweep 300 360
        (rateLimiterStep 1 10 Registry.empty
          ⟨"1.2.3.4", "GET", "/api/v1/users"⟩ 0).2).lastSeen
        (Request.key ⟨"1.2.3.4", "GET", "/api/v1/users"⟩) = none ∧
    (sweep 300 360
        (rateLimiterStep 1 10 Registry.empty
          ⟨"1.2.3.4", "GET", "/api/v1/users"⟩ 0).2).visitors
        (Request.key ⟨"1.2.3.4", "GET", "/api/v1/users"⟩) = none ∧
    (360 : ℚ) - 0 ≤ 900 := by
  have hls := step_lastSeen_self 1 10 Registry.empty
    ⟨"1.2.3.4", "GET", "/api/v1/users"⟩ 0
  obtain ⟨h1, h2⟩ := sweep_expired 300 360 hls (by norm_num)
  exact ⟨h1, h2, by norm_num⟩

/-- C1 amended: route groups share one package-level registry.  Requests of
distinct groups still use distinct keys (the key contains the route path),
so one group's `RateLimiter` execution leaves every other key's limiter and
last-seen state unchanged; but every sweeper sweeps the whole shared
registry with its own TTL `e`, removing any entry of any group whose idle
time exceeds `e`. -/
theorem c1_shared_registry (r : ℚ) (B : ℕ) (reg : Registry)
    (req req' : Request) (now e t : ℚ) :
    (req'.key ≠ req.key →
      (rateLimiterStep r B reg req now).2.visitors req'.key =
          reg.visitors req'.key ∧
        (rateLimiterStep r B reg req now).2.lastSeen req'.key =
          reg.lastSeen req'.key) ∧
    (reg.lastSeen req'.key = some t → e < now - t →
      (sweep e now reg).lastSeen req'.key = none ∧
        (sweep e now reg).visitors req'.key = none) :=
  ⟨fun h => step_frame r B reg req now req'.key h,
   fun h1 h2 => sweep_expired e now h1 h2⟩

theorem c1_shared_registry_witness :
    (rateLimiterStep (1 / 30) 1
        (rateLimiterStep 1 10 Registry.empty
          ⟨"1.2.3.4", "GET", "/api/v1/users"⟩ 0).2
        ⟨"1.2.3.4", "POST", "/auth/login"⟩ 360).2.visitors
        (Request.key ⟨"1.2.3.4", "GET", "/api/v1/users"⟩) =
      (rateLimiterStep 1 10 Registry.empty
        ⟨"1.2.3.4", "GET", "/api/v1/users"⟩ 0).2.visitors
        (Request.key ⟨"1.2.3.4", "GET", "/api/v1/users"⟩) ∧
    (sweep 300 360
        (rateLimiterStep 1 10 Registry.empty
          ⟨"1.2.3.4", "GET", "/api/v1/users"⟩ 0).2).visitors
        (Request.key ⟨"1.2.3.4", "GET", "/api/v1/users"⟩) = none :=
  ⟨((c1_shared_registry (1 / 30) 1
      (rateLimiterStep 1 10 Registry.empty
        ⟨"1.2.3.4", "GET", "/api/v1/users"⟩ 0).2
      ⟨"1.2.3.4", "POST", "/auth/login"⟩
      ⟨"1.2.3.4", "GET", "/api/v1/users"⟩ 360 300 0).1 (by decide)).1,
   ((c1_shared_registry (1 / 30) 1
      (rateLimiterStep 1 10 Registry.empty
        ⟨"1.2.3.4", "GET", "/api/v1/users"⟩ 0).2
      ⟨"1.2.3.4", "POST", "/auth/login"⟩
      ⟨"1.2.3.4", "GET", "/api/v1/users"⟩ 360 300 0).2
      (step_lastSeen_self 1 10 Registry.empty
        ⟨"1.2.3.4", "GET", "/api/v1/users"⟩ 0) (by norm_num)).2⟩

/-- C9 fails as stated: the cleanup goroutine of `startVisitorCleanup` is a
`for {}` loop with no `break`, `return`, channel or context select, so no
state of the loop can make an iteration exit: there is no cooperative
cancellation path. -/
theorem c9_counterexample : ¬ sweeperCancellable 300 := by
  rintro ⟨reg, now, h⟩
  exact LoopOutcome.noConfusion h

/-- C9 amended: every iteration of the cleanup loop unconditionally performs
its sweep and continues to the next iteration; the loop never exits, so the
sweeper stops only when the whole process dies, not at any registry or
route-group teardown. -/
theorem c9_no_cancellation (e : ℚ) (reg : Registry) (now : ℚ) :
    sweepLoopIter e reg now = LoopOutcome.continue (sweep e now reg) ∧
      sweepLoopIter e reg now ≠ LoopOutcome.exit :=
  ⟨rfl, fun h => LoopOutcome.noConfusion h⟩

theorem c9_no_cancellation_witness :
    sweepLoopIter 300 Registry.empty 60 =
        LoopOutcome.continue (sweep 300 60 Registry.empty) ∧
      sweepLoopIter 300 Registry.empty 60 ≠ LoopOutcome.exit :=
  c9_no_cancellation 300 Registry.empty 60

end RateLimiterModel
